import Mathlib

/-!
Verification of the DFW configuration-schema normalizers (`src/types.rs`).

Rust strings are modelled as `List Char` (`Str`), `str::split` as `splitChar`,
`u16::from_str` by its documented contract (optional leading `+`, decimal
digits, checked accumulation against the 16-bit bound, with the three
`ParseIntError` messages), and the semi-structured input documents as the
inductive `Value`.  The serde-derived map decoding of `ExposePort`
(`deny_unknown_fields`) is embedded as `deserialize_expose_port`, and the
visitors `StringOrStruct`, `SingleOrSeqStringOrStruct` and
`string_or_seq_string` as the corresponding functions on `Value`.
-/

deriving instance DecidableEq for Except

/-- Rust `&str` / `String`, modelled as its list of characters. -/
abbrev Str := List Char

/-- Embeds `const DEFAULT_PROTOCOL: &str = "tcp"`. -/
def DEFAULT_PROTOCOL : Str := "tcp".toList

/-- The quote character used by `format!` around embedded strings. -/
def quoteChar : Char := '\x27'

/-- Rust `str::split(sep)` on a one-character pattern: splits on every
occurrence of `sep`; the empty string yields `[[]]`. -/
def splitChar (sep : Char) : Str → List Str
  | [] => [[]]
  | x :: xs =>
    match splitChar sep xs with
    | [] => [[]]
    | h :: t => if x = sep then [] :: h :: t else (x :: h) :: t

/-- The `ParseIntError` display for `IntErrorKind::Empty`. -/
def parseIntEmptyMsg : Str := "cannot parse integer from empty string".toList

/-- The `ParseIntError` display for `IntErrorKind::InvalidDigit`. -/
def parseIntInvalidMsg : Str := "invalid digit found in string".toList

/-- The `ParseIntError` display for `IntErrorKind::PosOverflow`. -/
def parseIntOverflowMsg : Str := "number too large to fit in target type".toList

/-- The digit-accumulation loop of `u16::from_str_radix` (radix 10): each
digit is folded in with a checked multiply-add against the `u16` bound;
a non-digit character fails with `InvalidDigit`, an overflowing step with
`PosOverflow`. -/
def parseU16Digits : Nat → Str → Except Str Nat
  | acc, [] => .ok acc
  | acc, c :: cs =>
    if c.isDigit then
      let acc2 := acc * 10 + (c.toNat - 48)
      if 65535 < acc2 then .error parseIntOverflowMsg else parseU16Digits acc2 cs
    else .error parseIntInvalidMsg

/-- Rust `u16::from_str`: empty input fails with `Empty`; one leading `+`
is accepted (but `"+"` alone fails with `InvalidDigit`); a `-` sign is not
consumed for an unsigned type and therefore fails as an invalid digit. -/
def parseU16 : Str → Except Str Nat
  | [] => .error parseIntEmptyMsg
  | c :: cs =>
    if c = '+' then
      match cs with
      | [] => .error parseIntInvalidMsg
      | _ :: _ => parseU16Digits 0 cs
    else parseU16Digits 0 (c :: cs)

/-- Decimal-digit production for `u16::to_string` / `i64::to_string`,
little-endian; the first argument is fuel (always instantiated with the
number itself, which bounds the recursion depth). -/
def natToStrGo : Nat → Nat → Str
  | _, 0 => []
  | 0, _ + 1 => []
  | fuel + 1, n + 1 => Nat.digitChar ((n + 1) % 10) :: natToStrGo fuel ((n + 1) / 10)

/-- Rust `u16::to_string` (and the digits of `i64::to_string`): the usual
base-10 numeral, most significant digit first. -/
def natToStr (n : Nat) : Str :=
  if n = 0 then ['0'] else (natToStrGo n n).reverse

/-- Rust `i64::to_string`. -/
def intToStr : Int → Str
  | .ofNat n => natToStr n
  | .negSucc n => '-' :: natToStr (n + 1)

/-- Embeds the message `format!("port string has invalid format ...", v)`
built around the offending value. -/
def invalidFormatMsg (v : Str) : Str :=
  "port string has invalid format ".toList ++ quoteChar :: v ++ [quoteChar]

/-- Embeds `pub struct ExposePort { host_port: u16, container_port: Option<u16>,
family: String }`.  The `u16` fields are modelled as `Nat`; every value the
decoders construct is bounded by 65535. -/
structure ExposePort where
  host_port : Nat
  container_port : Option Nat
  family : Str
deriving DecidableEq, Repr

/-- The derive_builder-generated `ExposePortBuilder`: every field starts
unset. -/
structure ExposePortBuilder where
  host_port : Option Nat := none
  container_port : Option (Option Nat) := none
  family : Option Str := none
deriving DecidableEq, Repr

/-- Embeds `ExposePortBuilder::default_container_port`. -/
def ExposePortBuilder.default_container_port (_ : ExposePortBuilder) :
    Except Str (Option Nat) :=
  .ok none

/-- Embeds `ExposePortBuilder::default_family`. -/
def ExposePortBuilder.default_family (_ : ExposePortBuilder) : Except Str Str :=
  .ok DEFAULT_PROTOCOL

/-- Embeds `ExposePortBuilder::client_and_host_port`: split the value on `:`;
one token sets `host_port`, two tokens set `host_port` and
`container_port`, any other token count fails with the format error
embedding the value handed to this function (the colon-split body). -/
def ExposePortBuilder.client_and_host_port (b : ExposePortBuilder)
    (value : Str) : Except Str ExposePortBuilder :=
  match splitChar ':' value with
  | [t0] => do
    let h ← parseU16 t0
    .ok { b with host_port := some h }
  | [t0, t1] => do
    let h ← parseU16 t0
    let c ← parseU16 t1
    .ok { b with host_port := some h, container_port := some (some c) }
  | _ => .error (invalidFormatMsg value)

/-- Embeds `ExposePortBuilder::build` (derive_builder): unset `host_port` fails,
unset `container_port` and `family` are filled from the default-producing
methods. -/
def ExposePortBuilder.build (b : ExposePortBuilder) : Except Str ExposePort := do
  let hp ← match b.host_port with
    | some v => Except.ok v
    | none => Except.error "`host_port` must be initialized".toList
  let cp ← match b.container_port with
    | some v => Except.ok v
    | none => b.default_container_port
  let fam ← match b.family with
    | some v => Except.ok v
    | none => b.default_family
  Except.ok ⟨hp, cp, fam⟩

/-- Embeds `impl FromStr for ExposePort`: split on `/`; one part is the port-spec
body, two parts are body and family, any other count fails with the format
error embedding the whole input. -/
def ExposePort.from_str (s : Str) : Except Str ExposePort :=
  match splitChar '/' s with
  | [p0] => do
    let b ← ExposePortBuilder.client_and_host_port {} p0
    b.build
  | [p0, p1] => do
    let b ← ExposePortBuilder.client_and_host_port {} p0
    ExposePortBuilder.build { b with family := some p1 }
  | _ => .error (invalidFormatMsg s)

/-- A node of the semi-structured configuration document (the TOML value
model restricted to what the schema uses): integer, string, boolean,
sequence, or map with string keys. -/
inductive Value where
  | int (n : Int)
  | str (s : Str)
  | bool (b : Bool)
  | seq (xs : List Value)
  | map (kvs : List (Str × Value))

/-- The serde error cases the embedded decoders can produce.  For
`invalidType` the `found` slot is abstracted to the kind of the offending
node and `expected` is the visitor's `expecting` text. -/
inductive DeError where
  | custom (msg : Str)
  | invalidType (found : String) (expected : String)
  | invalidValue (found : Int) (expected : String)
  | unknownField (field : Str)
  | duplicateField (field : Str)
  | missingField (field : Str)
deriving DecidableEq, Repr

/-- The kind tag serde reports for an unexpected node. -/
def Value.kind : Value → String
  | .int _ => "integer"
  | .str _ => "string"
  | .bool _ => "boolean"
  | .seq _ => "sequence"
  | .map _ => "map"

/-- Embeds `u16::deserialize` on a document node: an integer in `0..=65535`
succeeds, an out-of-range integer is an invalid-value error, any other
node an invalid-type error. -/
def deserializeU16 : Value → Except DeError Nat
  | .int n => if 0 ≤ n ∧ n ≤ 65535 then .ok n.toNat else .error (.invalidValue n "u16")
  | v => .error (.invalidType v.kind "u16")

/-- Embeds `Option<u16>::deserialize`: a present node decodes through `u16`
into `some`. -/
def deserializeOptU16 (v : Value) : Except DeError (Option Nat) :=
  (deserializeU16 v).map some

/-- Embeds `String::deserialize`. -/
def deserializeString : Value → Except DeError Str
  | .str s => .ok s
  | v => .error (.invalidType v.kind "a string")

/-- The partially-filled field state of the serde-derived `ExposePort`
map visitor. -/
structure ExposePortFieldsAcc where
  hp : Option Nat := none
  cp : Option (Option Nat) := none
  fam : Option Str := none
deriving DecidableEq, Repr

/-- One entry of the serde-derived `ExposePort` map visitor
(`deny_unknown_fields`): a declared key checks for duplication and decodes
its value; an undeclared key is an unknown-field error. -/
def exposePortStep (acc : ExposePortFieldsAcc) (kv : Str × Value) :
    Except DeError ExposePortFieldsAcc :=
  if kv.1 = "host_port".toList then
    match acc.hp with
    | some _ => .error (.duplicateField kv.1)
    | none => (deserializeU16 kv.2).map fun h => { acc with hp := some h }
  else if kv.1 = "container_port".toList then
    match acc.cp with
    | some _ => .error (.duplicateField kv.1)
    | none => (deserializeOptU16 kv.2).map fun c => { acc with cp := some c }
  else if kv.1 = "family".toList then
    match acc.fam with
    | some _ => .error (.duplicateField kv.1)
    | none => (deserializeString kv.2).map fun f => { acc with fam := some f }
  else .error (.unknownField kv.1)

/-- The entry loop every serde-derived record visitor runs: fold the step
function over the map's entries in order, stopping at the first error. -/
def decodeEntries {α : Type} (step : α → Str × Value → Except DeError α) :
    α → List (Str × Value) → Except DeError α
  | acc, [] => .ok acc
  | acc, kv :: rest =>
    match step acc kv with
    | .ok acc2 => decodeEntries step acc2 rest
    | .error e => .error e

/-- The serde-derived `ExposePort::deserialize` on a map node: run the
entry loop, then require `host_port`, default `container_port` to absent,
and default `family` via `default_expose_port_family` (`"tcp"`). -/
def deserialize_expose_port (kvs : List (Str × Value)) :
    Except DeError ExposePort := do
  let f ← decodeEntries exposePortStep {} kvs
  match f.hp with
  | none => .error (.missingField "host_port".toList)
  | some h => .ok ⟨h, f.cp.getD none, f.fam.getD DEFAULT_PROTOCOL⟩

/-- The `StringOrStruct<ExposePort>` visitor under `deserialize_any`: an
integer is stringified in base 10 and parsed via `FromStr`, a string is
parsed via `FromStr` directly, a map decodes against the record schema;
any other node shape is an invalid-type error against the visitor's
`expecting` text `"integer, string or map"`. -/
def string_or_struct_expose_port : Value → Except DeError ExposePort
  | .int n => (ExposePort.from_str (intToStr n)).mapError .custom
  | .str s => (ExposePort.from_str s).mapError .custom
  | .map kvs => deserialize_expose_port kvs
  | v => .error (.invalidType v.kind "integer, string or map")

/-- The element loop of `SingleOrSeqStringOrStruct::visit_seq`: each
element goes through the `StringOrStruct` seed, results are collected in
order. -/
def visitSeqElems : List Value → Except DeError (List ExposePort)
  | [] => .ok []
  | x :: rest => do
    let e ← string_or_struct_expose_port x
    let v ← visitSeqElems rest
    .ok (e :: v)

/-- Embeds `single_or_seq_string_or_struct` for `ExposePort`
(the `SingleOrSeqStringOrStruct` visitor under `deserialize_any`): an
integer, string or map yields a one-element list through the same dispatch
as `StringOrStruct`; a sequence maps that dispatch over its elements; any
other shape is an invalid-type error against this visitor's `expecting`
text. -/
def single_or_seq_string_or_struct : Value → Except DeError (List ExposePort)
  | .int n => (ExposePort.from_str (intToStr n)).map ([·]) |>.mapError .custom
  | .str s => (ExposePort.from_str s).map ([·]) |>.mapError .custom
  | .map kvs => (deserialize_expose_port kvs).map ([·])
  | .seq xs => visitSeqElems xs
  | v => .error (.invalidType v.kind
      "sequence of integers, strings or maps or a single integer, string or map")

/-- The element loop of `Vec<String>::deserialize` (via
`SeqAccessDeserializer`): each element must be a string. -/
def visitStringElems : List Value → Except DeError (List Str)
  | [] => .ok []
  | x :: rest => do
    let s ← deserializeString x
    let v ← visitStringElems rest
    .ok (s :: v)

/-- Embeds `string_or_seq_string` (the `StringOrSeqString` visitor under
`deserialize_any`): a single string becomes a one-element list, a sequence
decodes element-wise as strings, and any other node shape is an
invalid-type error against the `expecting` text
`"string or sequence of strings"`. -/
def string_or_seq_string : Value → Except DeError (List Str)
  | .str s => .ok [s]
  | .seq xs => visitStringElems xs
  | v => .error (.invalidType v.kind "string or sequence of strings")

/-- The numeric value of a digit string continued from an accumulator
(the mathematical content of the `parseU16Digits` loop). -/
def digitsVal (acc : Nat) (l : Str) : Nat :=
  l.foldl (fun a c => a * 10 + (c.toNat - 48)) acc

lemma digitsVal_nil (acc : Nat) : digitsVal acc [] = acc := rfl

lemma digitsVal_cons (acc : Nat) (c : Char) (l : Str) :
    digitsVal acc (c :: l) = digitsVal (acc * 10 + (c.toNat - 48)) l := rfl

lemma le_digitsVal (acc : Nat) (l : Str) : acc ≤ digitsVal acc l := by
  induction l generalizing acc with
  | nil => exact Nat.le_refl _
  | cons c l ih =>
    rw [digitsVal_cons]
    exact le_trans (by omega) (ih (acc * 10 + (c.toNat - 48)))

lemma parseU16Digits_ok (l : Str) (acc : Nat)
    (hd : ∀ c ∈ l, c.isDigit) (hle : digitsVal acc l ≤ 65535) :
    parseU16Digits acc l = .ok (digitsVal acc l) := by
  induction l generalizing acc with
  | nil => rfl
  | cons c l ih =>
    have hc : c.isDigit := hd c (List.mem_cons_self c l)
    rw [digitsVal_cons] at hle ⊢
    have hacc2 : ¬ 65535 < acc * 10 + (c.toNat - 48) := by
      have := le_digitsVal (acc * 10 + (c.toNat - 48)) l
      omega
    simp only [parseU16Digits, hc, if_true, if_neg hacc2]
    exact ih _ (fun d hdm => hd d (List.mem_cons_of_mem _ hdm)) hle

lemma parseU16Digits_overflow (l : Str) (acc : Nat)
    (hd : ∀ c ∈ l, c.isDigit) (hacc : acc ≤ 65535)
    (hbig : 65535 < digitsVal acc l) :
    parseU16Digits acc l = .error parseIntOverflowMsg := by
  induction l generalizing acc with
  | nil => rw [digitsVal_nil] at hbig; omega
  | cons c l ih =>
    have hc : c.isDigit := hd c (List.mem_cons_self c l)
    rw [digitsVal_cons] at hbig
    simp only [parseU16Digits, hc, if_true]
    by_cases hover : 65535 < acc * 10 + (c.toNat - 48)
    · rw [if_pos hover]
    · rw [if_neg hover]
      exact ih _ (fun d hdm => hd d (List.mem_cons_of_mem _ hdm)) (by omega) hbig

lemma digitChar_isDigit : ∀ m, m < 10 → (Nat.digitChar m).isDigit = true := by
  decide

lemma digitChar_toNat : ∀ m, m < 10 → (Nat.digitChar m).toNat - 48 = m := by
  decide

lemma natToStrGo_digits :
    ∀ f n, ∀ c ∈ natToStrGo f n, c.isDigit := by
  intro f
  induction f with
  | zero => intro n c hc; cases n <;> simp [natToStrGo] at hc
  | succ f ih =>
    intro n c hc
    cases n with
    | zero => simp [natToStrGo] at hc
    | succ m =>
      simp only [natToStrGo, List.mem_cons] at hc
      rcases hc with hc | hc
      · subst hc
        exact digitChar_isDigit _ (Nat.mod_lt _ (by omega))
      · exact ih _ c hc

lemma natToStrGo_foldr :
    ∀ f n, n ≤ f →
      (natToStrGo f n).foldr (fun c a => a * 10 + (c.toNat - 48)) 0 = n := by
  intro f
  induction f with
  | zero =>
    intro n hn
    interval_cases n
    rfl
  | succ f ih =>
    intro n hn
    cases n with
    | zero => rfl
    | succ m =>
      have hdiv : (m + 1) / 10 ≤ f := by
        have := Nat.div_lt_self (Nat.succ_pos m) (by omega : 1 < 10)
        omega
      simp only [natToStrGo, List.foldr_cons, ih _ hdiv]
      rw [digitChar_toNat _ (Nat.mod_lt _ (by omega))]
      omega

lemma digitsVal_natToStr (n : Nat) : digitsVal 0 (natToStr n) = n := by
  cases n with
  | zero => decide
  | succ m =>
    rw [natToStr, if_neg (Nat.succ_ne_zero m)]
    show (natToStrGo (m + 1) (m + 1)).reverse.foldl _ 0 = m + 1
    rw [List.foldl_reverse]
    exact natToStrGo_foldr (m + 1) (m + 1) (Nat.le_refl _)

lemma natToStr_digits (n : Nat) : ∀ c ∈ natToStr n, c.isDigit := by
  cases n with
  | zero => intro c hc; simp [natToStr] at hc; subst hc; decide
  | succ m =>
    intro c hc
    rw [natToStr, if_neg (Nat.succ_ne_zero m), List.mem_reverse] at hc
    exact natToStrGo_digits _ _ c hc

lemma natToStr_ne_nil (n : Nat) : natToStr n ≠ [] := by
  cases n with
  | zero => simp [natToStr]
  | succ m =>
    rw [natToStr, if_neg (Nat.succ_ne_zero m)]
    simp [natToStrGo]

lemma isDigit_ne_slash {c : Char} (h : c.isDigit) : c ≠ '/' := by
  intro e; rw [e] at h; exact absurd h (by decide)

lemma isDigit_ne_colon {c : Char} (h : c.isDigit) : c ≠ ':' := by
  intro e; rw [e] at h; exact absurd h (by decide)

lemma isDigit_ne_plus {c : Char} (h : c.isDigit) : c ≠ '+' := by
  intro e; rw [e] at h; exact absurd h (by decide)

lemma natToStr_slash_not_mem (n : Nat) : '/' ∉ natToStr n := by
  intro hm
  exact isDigit_ne_slash (natToStr_digits n _ hm) rfl

lemma natToStr_colon_not_mem (n : Nat) : ':' ∉ natToStr n := by
  intro hm
  exact isDigit_ne_colon (natToStr_digits n _ hm) rfl

lemma parseU16_natToStr {n : Nat} (hn : n ≤ 65535) :
    parseU16 (natToStr n) = .ok n := by
  rcases hrepr : natToStr n with _ | ⟨c, cs⟩
  · exact absurd hrepr (natToStr_ne_nil n)
  · have hc : c.isDigit := by
      have := natToStr_digits n c
      rw [hrepr] at this
      exact this (List.mem_cons_self c cs)
    have hstep : parseU16 (c :: cs) = parseU16Digits 0 (c :: cs) := by
      simp only [parseU16, if_neg (isDigit_ne_plus hc)]
    rw [hstep, ← hrepr]
    rw [parseU16Digits_ok _ _ (natToStr_digits n) (by rw [digitsVal_natToStr]; exact hn)]
    rw [digitsVal_natToStr]

lemma parseU16_natToStr_overflow {n : Nat} (hn : 65535 < n) :
    parseU16 (natToStr n) = .error parseIntOverflowMsg := by
  rcases hrepr : natToStr n with _ | ⟨c, cs⟩
  · exact absurd hrepr (natToStr_ne_nil n)
  · have hc : c.isDigit := by
      have := natToStr_digits n c
      rw [hrepr] at this
      exact this (List.mem_cons_self c cs)
    have hstep : parseU16 (c :: cs) = parseU16Digits 0 (c :: cs) := by
      simp only [parseU16, if_neg (isDigit_ne_plus hc)]
    rw [hstep, ← hrepr]
    exact parseU16Digits_overflow _ _ (natToStr_digits n) (by omega)
      (by rw [digitsVal_natToStr]; exact hn)

lemma splitChar_ne_nil (sep : Char) (s : Str) : splitChar sep s ≠ [] := by
  induction s with
  | nil => simp [splitChar]
  | cons x xs ih =>
    rcases hsp : splitChar sep xs with _ | ⟨h, t⟩
    · exact absurd hsp ih
    · simp only [splitChar, hsp]
      split <;> simp

lemma splitChar_not_mem {sep : Char} {s : Str} (h : sep ∉ s) :
    splitChar sep s = [s] := by
  induction s with
  | nil => rfl
  | cons x xs ih =>
    have hx : x ≠ sep := fun e => h (e ▸ List.mem_cons_self x xs)
    have hxs : sep ∉ xs := fun hm => h (List.mem_cons_of_mem _ hm)
    simp only [splitChar, ih hxs, if_neg hx]

lemma splitChar_append {sep : Char} {a : Str} (b : Str) (h : sep ∉ a) :
    splitChar sep (a ++ sep :: b) = a :: splitChar sep b := by
  induction a with
  | nil =>
    rcases hsp : splitChar sep b with _ | ⟨hd, t⟩
    · exact absurd hsp (splitChar_ne_nil sep b)
    · simp [splitChar, hsp]
  | cons x a ih =>
    have hx : x ≠ sep := fun e => h (e ▸ List.mem_cons_self x a)
    have ha : sep ∉ a := fun hm => h (List.mem_cons_of_mem _ hm)
    simp only [List.cons_append, splitChar, List.append_eq, ih ha, if_neg hx]

lemma except_bind_ok {ε α β : Type} (a : α) (f : α → Except ε β) :
    (Except.ok a >>= f : Except ε β) = f a := rfl

lemma except_bind_error {ε α β : Type} (e : ε) (f : α → Except ε β) :
    (Except.error e >>= f : Except ε β) = .error e := rfl

lemma client_and_host_port_one {v t : Str} {h : Nat} (b : ExposePortBuilder)
    (hsplit : splitChar ':' v = [t]) (hp : parseU16 t = .ok h) :
    b.client_and_host_port v = .ok { b with host_port := some h } := by
  simp only [ExposePortBuilder.client_and_host_port, hsplit, hp, except_bind_ok]

lemma client_and_host_port_two {v t0 t1 : Str} {h c : Nat} (b : ExposePortBuilder)
    (hsplit : splitChar ':' v = [t0, t1])
    (hp0 : parseU16 t0 = .ok h) (hp1 : parseU16 t1 = .ok c) :
    b.client_and_host_port v =
      .ok { b with host_port := some h, container_port := some (some c) } := by
  simp only [ExposePortBuilder.client_and_host_port, hsplit, hp0, hp1, except_bind_ok]

lemma client_and_host_port_one_err {v t : Str} {e : Str} (b : ExposePortBuilder)
    (hsplit : splitChar ':' v = [t]) (hp : parseU16 t = .error e) :
    b.client_and_host_port v = .error e := by
  simp only [ExposePortBuilder.client_and_host_port, hsplit, hp, except_bind_error]

lemma client_and_host_port_two_err0 {v t0 t1 : Str} {e : Str} (b : ExposePortBuilder)
    (hsplit : splitChar ':' v = [t0, t1]) (hp0 : parseU16 t0 = .error e) :
    b.client_and_host_port v = .error e := by
  simp only [ExposePortBuilder.client_and_host_port, hsplit, hp0, except_bind_error]

lemma client_and_host_port_two_err1 {v t0 t1 : Str} {h : Nat} {e : Str}
    (b : ExposePortBuilder)
    (hsplit : splitChar ':' v = [t0, t1]) (hp0 : parseU16 t0 = .ok h)
    (hp1 : parseU16 t1 = .error e) :
    b.client_and_host_port v = .error e := by
  simp only [ExposePortBuilder.client_and_host_port, hsplit, hp0, hp1,
    except_bind_ok, except_bind_error]

lemma client_and_host_port_many {v : Str} (b : ExposePortBuilder)
    (hlen : 3 ≤ (splitChar ':' v).length) :
    b.client_and_host_port v = .error (invalidFormatMsg v) := by
  rcases hsplit : splitChar ':' v with _ | ⟨t0, _ | ⟨t1, _ | ⟨t2, rest⟩⟩⟩ <;>
    rw [hsplit] at hlen <;> simp at hlen
  simp only [ExposePortBuilder.client_and_host_port, hsplit]

lemma build_none (cp : Option (Option Nat)) (fam : Option Str) :
    ExposePortBuilder.build ⟨none, cp, fam⟩ =
      .error "`host_port` must be initialized".toList := rfl

lemma build_nn (h : Nat) :
    ExposePortBuilder.build ⟨some h, none, none⟩ =
      .ok ⟨h, none, DEFAULT_PROTOCOL⟩ := rfl

lemma build_sn (h : Nat) (cp : Option Nat) :
    ExposePortBuilder.build ⟨some h, some cp, none⟩ =
      .ok ⟨h, cp, DEFAULT_PROTOCOL⟩ := rfl

lemma build_ns (h : Nat) (fam : Str) :
    ExposePortBuilder.build ⟨some h, none, some fam⟩ =
      .ok ⟨h, none, fam⟩ := rfl

lemma build_ss (h : Nat) (cp : Option Nat) (fam : Str) :
    ExposePortBuilder.build ⟨some h, some cp, some fam⟩ =
      .ok ⟨h, cp, fam⟩ := rfl

lemma from_str_no_slash {s : Str} (hns : '/' ∉ s) :
    ExposePort.from_str s =
      (ExposePortBuilder.client_and_host_port {} s) >>= ExposePortBuilder.build := by
  simp only [ExposePort.from_str, splitChar_not_mem hns]

lemma from_str_slash {body fam : Str} (hb : '/' ∉ body) (hf : '/' ∉ fam) :
    ExposePort.from_str (body ++ '/' :: fam) =
      (ExposePortBuilder.client_and_host_port {} body) >>=
        fun b => ExposePortBuilder.build { b with family := some fam } := by
  simp only [ExposePort.from_str, splitChar_append fam hb, splitChar_not_mem hf]

lemma from_str_multi_slash {s : Str} (hlen : 3 ≤ (splitChar '/' s).length) :
    ExposePort.from_str s = .error (invalidFormatMsg s) := by
  rcases hsplit : splitChar '/' s with _ | ⟨t0, _ | ⟨t1, _ | ⟨t2, rest⟩⟩⟩ <;>
    rw [hsplit] at hlen <;> simp at hlen
  simp only [ExposePort.from_str, hsplit]

lemma from_str_ok_one {s t : Str} {h : Nat} (hns : '/' ∉ s)
    (hsplit : splitChar ':' s = [t]) (hp : parseU16 t = .ok h) :
    ExposePort.from_str s = .ok ⟨h, none, DEFAULT_PROTOCOL⟩ := by
  rw [from_str_no_slash hns, client_and_host_port_one {} hsplit hp, except_bind_ok]
  rfl

lemma from_str_ok_two {s t0 t1 : Str} {h c : Nat} (hns : '/' ∉ s)
    (hsplit : splitChar ':' s = [t0, t1])
    (hp0 : parseU16 t0 = .ok h) (hp1 : parseU16 t1 = .ok c) :
    ExposePort.from_str s = .ok ⟨h, some c, DEFAULT_PROTOCOL⟩ := by
  rw [from_str_no_slash hns, client_and_host_port_two {} hsplit hp0 hp1,
    except_bind_ok]
  rfl

lemma from_str_ok_one_fam {body fam t : Str} {h : Nat}
    (hb : '/' ∉ body) (hf : '/' ∉ fam)
    (hsplit : splitChar ':' body = [t]) (hp : parseU16 t = .ok h) :
    ExposePort.from_str (body ++ '/' :: fam) = .ok ⟨h, none, fam⟩ := by
  rw [from_str_slash hb hf, client_and_host_port_one {} hsplit hp, except_bind_ok]
  rfl

lemma from_str_ok_two_fam {body fam t0 t1 : Str} {h c : Nat}
    (hb : '/' ∉ body) (hf : '/' ∉ fam)
    (hsplit : splitChar ':' body = [t0, t1])
    (hp0 : parseU16 t0 = .ok h) (hp1 : parseU16 t1 = .ok c) :
    ExposePort.from_str (body ++ '/' :: fam) = .ok ⟨h, some c, fam⟩ := by
  rw [from_str_slash hb hf, client_and_host_port_two {} hsplit hp0 hp1,
    except_bind_ok]
  rfl

lemma from_str_err_no_slash {s : Str} {e : Str} (hns : '/' ∉ s)
    (herr : ExposePortBuilder.client_and_host_port {} s = .error e) :
    ExposePort.from_str s = .error e := by
  rw [from_str_no_slash hns, herr, except_bind_error]

lemma from_str_err_slash {body fam : Str} {e : Str}
    (hb : '/' ∉ body) (hf : '/' ∉ fam)
    (herr : ExposePortBuilder.client_and_host_port {} body = .error e) :
    ExposePort.from_str (body ++ '/' :: fam) = .error e := by
  rw [from_str_slash hb hf, herr, except_bind_error]

lemma build_fields {b : ExposePortBuilder} {p : ExposePort}
    (hok : b.build = .ok p) :
    b.host_port = some p.host_port ∧
    p.container_port = b.container_port.getD none ∧
    p.family = b.family.getD DEFAULT_PROTOCOL := by
  rcases b with ⟨hp, cp, fam⟩
  rcases hp with _ | hpv
  · rw [build_none] at hok
    exact absurd hok (by simp)
  · rcases cp with _ | cpv <;> rcases fam with _ | famv
    · rw [build_nn] at hok
      cases hok
      exact ⟨rfl, rfl, rfl⟩
    · rw [build_ns] at hok
      cases hok
      exact ⟨rfl, rfl, rfl⟩
    · rw [build_sn] at hok
      cases hok
      exact ⟨rfl, rfl, rfl⟩
    · rw [build_ss] at hok
      cases hok
      exact ⟨rfl, rfl, rfl⟩

lemma client_and_host_port_fields {b b' : ExposePortBuilder} {v : Str}
    (hok : b.client_and_host_port v = .ok b') :
    b'.family = b.family ∧
    ((splitChar ':' v).length = 1 → b'.container_port = b.container_port) := by
  rcases hsp : splitChar ':' v with _ | ⟨t0, _ | ⟨t1, _ | ⟨t2, rest⟩⟩⟩
  · exact absurd hsp (splitChar_ne_nil ':' v)
  · rcases hp : parseU16 t0 with e | h
    · rw [client_and_host_port_one_err b hsp hp] at hok
      exact absurd hok (by simp)
    · rw [client_and_host_port_one b hsp hp] at hok
      cases hok
      exact ⟨rfl, fun _ => rfl⟩
  · rcases hp0 : parseU16 t0 with e | h
    · rw [client_and_host_port_two_err0 b hsp hp0] at hok
      exact absurd hok (by simp)
    · rcases hp1 : parseU16 t1 with e | c
      · rw [client_and_host_port_two_err1 b hsp hp0 hp1] at hok
        exact absurd hok (by simp)
      · rw [client_and_host_port_two b hsp hp0 hp1] at hok
        cases hok
        refine ⟨rfl, fun hlen => ?_⟩
        simp at hlen
  · rw [client_and_host_port_many b (by rw [hsp]; simp)] at hok
    exact absurd hok (by simp)

lemma colon_body_slash_not_mem (h c : Nat) :
    '/' ∉ natToStr h ++ ':' :: natToStr c := by
  intro hm
  rcases List.mem_append.mp hm with hm | hm
  · exact natToStr_slash_not_mem h hm
  · rcases List.mem_cons.mp hm with hm | hm
    · exact absurd hm (by decide)
    · exact natToStr_slash_not_mem c hm

lemma colon_body_split (h c : Nat) :
    splitChar ':' (natToStr h ++ ':' :: natToStr c) = [natToStr h, natToStr c] := by
  rw [splitChar_append _ (natToStr_colon_not_mem h),
    splitChar_not_mem (natToStr_colon_not_mem c)]

/-- C2: for every valid host port `h`, container port `c` and family `f`,
the grammar parser maps `"h"` to `{h, absent, tcp}`, `"h/f"` to
`{h, absent, f}`, `"h:c"` to `{h, c, tcp}` and `"h:c/f"` to `{h, c, f}`. -/
theorem from_str_grammar_forms (h c : Nat) (f : Str)
    (hh1 : 1 ≤ h) (hh2 : h ≤ 65535) (hc1 : 1 ≤ c) (hc2 : c ≤ 65535)
    (hf1 : f ≠ []) (hf2 : '/' ∉ f) :
    ExposePort.from_str (natToStr h) = .ok ⟨h, none, DEFAULT_PROTOCOL⟩ ∧
    ExposePort.from_str (natToStr h ++ '/' :: f) = .ok ⟨h, none, f⟩ ∧
    ExposePort.from_str (natToStr h ++ ':' :: natToStr c) =
      .ok ⟨h, some c, DEFAULT_PROTOCOL⟩ ∧
    ExposePort.from_str ((natToStr h ++ ':' :: natToStr c) ++ '/' :: f) =
      .ok ⟨h, some c, f⟩ := by
  refine ⟨?_, ?_, ?_, ?_⟩
  · exact from_str_ok_one (natToStr_slash_not_mem h)
      (splitChar_not_mem (natToStr_colon_not_mem h)) (parseU16_natToStr hh2)
  · exact from_str_ok_one_fam (natToStr_slash_not_mem h) hf2
      (splitChar_not_mem (natToStr_colon_not_mem h)) (parseU16_natToStr hh2)
  · exact from_str_ok_two (colon_body_slash_not_mem h c) (colon_body_split h c)
      (parseU16_natToStr hh2) (parseU16_natToStr hc2)
  · exact from_str_ok_two_fam (colon_body_slash_not_mem h c) hf2
      (colon_body_split h c) (parseU16_natToStr hh2) (parseU16_natToStr hc2)

/-- Witness for C2 at `h = 80`, `c = 8080`, `f = "udp"`. -/
theorem from_str_grammar_forms_witness :
    ExposePort.from_str (natToStr 80) = .ok ⟨80, none, DEFAULT_PROTOCOL⟩ ∧
    ExposePort.from_str (natToStr 80 ++ '/' :: "udp".toList) =
      .ok ⟨80, none, "udp".toList⟩ ∧
    ExposePort.from_str (natToStr 80 ++ ':' :: natToStr 8080) =
      .ok ⟨80, some 8080, DEFAULT_PROTOCOL⟩ ∧
    ExposePort.from_str ((natToStr 80 ++ ':' :: natToStr 8080) ++ '/' :: "udp".toList) =
      .ok ⟨80, some 8080, "udp".toList⟩ :=
  from_str_grammar_forms 80 8080 "udp".toList (by decide) (by decide) (by decide)
    (by decide) (by decide) (by decide)

/-- C5 counterexample: the claim says any string whose last `/` is followed
by nothing fails to parse, but `"80/"` parses successfully (with the empty
family taken verbatim). -/
theorem from_str_trailing_slash_counterexample :
    ExposePort.from_str ("80/".toList) = .ok ⟨80, none, []⟩ := by decide

/-- C5 amended: the parser splits the input on every `/`.  With no `/`
the family defaults to `"tcp"`; with exactly one `/` the right side is
taken verbatim as the family with no validation, so it may be empty and
`"80/"` parses successfully with family `""`; with two or more `/` the
parse fails with the format error embedding the input. -/
theorem from_str_slash_split_amended :
    (∀ s p, '/' ∉ s → ExposePort.from_str s = .ok p →
      p.family = DEFAULT_PROTOCOL) ∧
    (∀ body fam p, '/' ∉ body → '/' ∉ fam →
      ExposePort.from_str (body ++ '/' :: fam) = .ok p → p.family = fam) ∧
    (∀ s, 3 ≤ (splitChar '/' s).length →
      ExposePort.from_str s = .error (invalidFormatMsg s)) ∧
    ExposePort.from_str ("80/".toList) = .ok ⟨80, none, []⟩ := by
  refine ⟨?_, ?_, fun s => from_str_multi_slash, by decide⟩
  · intro s p hns hok
    rw [from_str_no_slash hns] at hok
    rcases hc : ExposePortBuilder.client_and_host_port {} s with e | b
    · rw [hc, except_bind_error] at hok
      exact absurd hok (by simp)
    · rw [hc, except_bind_ok] at hok
      have hfam := (client_and_host_port_fields hc).1
      have := (build_fields hok).2.2
      rw [this, hfam]
      rfl
  · intro body fam p hb hf hok
    rw [from_str_slash hb hf] at hok
    rcases hc : ExposePortBuilder.client_and_host_port {} body with e | b
    · rw [hc, except_bind_error] at hok
      exact absurd hok (by simp)
    · rw [hc, except_bind_ok] at hok
      have := (build_fields hok).2.2
      rw [this]
      rfl

/-- Witness for C5's amended theorem at `"53"`, `"53/udp"` and `"a/b/c"`. -/
theorem from_str_slash_split_amended_witness :
    (⟨53, none, DEFAULT_PROTOCOL⟩ : ExposePort).family = DEFAULT_PROTOCOL ∧
    (⟨53, none, "udp".toList⟩ : ExposePort).family = "udp".toList ∧
    ExposePort.from_str ("a/b/c".toList) =
      .error (invalidFormatMsg ("a/b/c".toList)) :=
  ⟨from_str_slash_split_amended.1 "53".toList _ (by decide) (by decide),
   from_str_slash_split_amended.2.1 "53".toList "udp".toList _ (by decide)
     (by decide) (by decide),
   from_str_slash_split_amended.2.2.1 "a/b/c".toList (by decide)⟩

lemma invalidFormatMsg_embeds (v : Str) : v <:+: invalidFormatMsg v :=
  ⟨"port string has invalid format ".toList ++ [quoteChar], [quoteChar], by
    simp [invalidFormatMsg]⟩

/-- C4 counterexample: the claim says every parse failure embeds the
original input string verbatim, but the numeric-parse failure on
`"notaport"` reports only the underlying cause, which does not contain the
input. -/
theorem from_str_error_embedding_counterexample :
    ExposePort.from_str ("notaport".toList) = .error parseIntInvalidMsg ∧
    ¬ ("notaport".toList <:+: parseIntInvalidMsg) := by decide

/-- C4 amended: a colon-split never produces zero tokens; more than two
colon tokens fail with a format error embedding the colon-split body
verbatim — that body is the original input exactly when the input contains
no `/` — more than two slash parts fail with a format error embedding the
original input verbatim, and a non-numeric or out-of-range token fails with
just the underlying numeric-parse cause, without the input string. -/
theorem from_str_error_embedding_amended :
    (∀ s : Str, splitChar ':' s ≠ []) ∧
    (∀ s, '/' ∉ s → 3 ≤ (splitChar ':' s).length →
      ExposePort.from_str s = .error (invalidFormatMsg s) ∧
        s <:+: invalidFormatMsg s) ∧
    (∀ body fam, '/' ∉ body → '/' ∉ fam → 3 ≤ (splitChar ':' body).length →
      ExposePort.from_str (body ++ '/' :: fam) = .error (invalidFormatMsg body) ∧
        body <:+: invalidFormatMsg body) ∧
    (∀ s, 3 ≤ (splitChar '/' s).length →
      ExposePort.from_str s = .error (invalidFormatMsg s) ∧
        s <:+: invalidFormatMsg s) ∧
    (∀ t e, '/' ∉ t → ':' ∉ t → parseU16 t = .error e →
      ExposePort.from_str t = .error e) := by
  refine ⟨fun s => splitChar_ne_nil ':' s, ?_, ?_, ?_, ?_⟩
  · intro s hns hlen
    exact ⟨from_str_err_no_slash hns (client_and_host_port_many {} hlen),
      invalidFormatMsg_embeds s⟩
  · intro body fam hb hf hlen
    exact ⟨from_str_err_slash hb hf (client_and_host_port_many {} hlen),
      invalidFormatMsg_embeds body⟩
  · intro s hlen
    exact ⟨from_str_multi_slash hlen, invalidFormatMsg_embeds s⟩
  · intro t e hns hnc herr
    exact from_str_err_no_slash hns
      (client_and_host_port_one_err {} (splitChar_not_mem hnc) herr)

/-- Witness for C4's amended theorem at `"1:2:3"`, `"1:2:3/tcp"`,
`"a/b/c"` and `"notanumber"`. -/
theorem from_str_error_embedding_amended_witness :
    splitChar ':' ("".toList) ≠ [] ∧
    (ExposePort.from_str ("1:2:3".toList) =
        .error (invalidFormatMsg ("1:2:3".toList)) ∧
      "1:2:3".toList <:+: invalidFormatMsg ("1:2:3".toList)) ∧
    (ExposePort.from_str ("1:2:3".toList ++ '/' :: "tcp".toList) =
        .error (invalidFormatMsg ("1:2:3".toList)) ∧
      "1:2:3".toList <:+: invalidFormatMsg ("1:2:3".toList)) ∧
    (ExposePort.from_str ("a/b/c".toList) =
        .error (invalidFormatMsg ("a/b/c".toList)) ∧
      "a/b/c".toList <:+: invalidFormatMsg ("a/b/c".toList)) ∧
    ExposePort.from_str ("notanumber".toList) = .error parseIntInvalidMsg :=
  ⟨from_str_error_embedding_amended.1 "".toList,
   from_str_error_embedding_amended.2.1 "1:2:3".toList (by decide) (by decide),
   from_str_error_embedding_amended.2.2.1 "1:2:3".toList "tcp".toList
     (by decide) (by decide) (by decide),
   from_str_error_embedding_amended.2.2.2.1 "a/b/c".toList (by decide),
   from_str_error_embedding_amended.2.2.2.2 "notanumber".toList parseIntInvalidMsg
     (by decide) (by decide) (by decide)⟩

/-- C7: the only numeric validation is the unsigned 16-bit width:
`"0"` parses with `host_port = 0`, any numeral above 65535 fails with the
overflow cause, and any bare token `u16`-parsing rejects makes the parse
fail (with that same cause). -/
theorem from_str_u16_width_only :
    ExposePort.from_str ("0".toList) = .ok ⟨0, none, DEFAULT_PROTOCOL⟩ ∧
    (∀ n : Nat, 65535 < n →
      ExposePort.from_str (natToStr n) = .error parseIntOverflowMsg) ∧
    (∀ t e, '/' ∉ t → ':' ∉ t → parseU16 t = .error e →
      ExposePort.from_str t = .error e) := by
  refine ⟨by decide, ?_, ?_⟩
  · intro n hn
    exact from_str_err_no_slash (natToStr_slash_not_mem n)
      (client_and_host_port_one_err {}
        (splitChar_not_mem (natToStr_colon_not_mem n))
        (parseU16_natToStr_overflow hn))
  · intro t e hns hnc herr
    exact from_str_err_no_slash hns
      (client_and_host_port_one_err {} (splitChar_not_mem hnc) herr)

/-- Witness for C7 at `n = 65536` and the non-numeric token `"80a"`. -/
theorem from_str_u16_width_only_witness :
    ExposePort.from_str (natToStr 65536) = .error parseIntOverflowMsg ∧
    ExposePort.from_str ("80a".toList) = .error parseIntInvalidMsg :=
  ⟨from_str_u16_width_only.2.1 65536 (by decide),
   from_str_u16_width_only.2.2 "80a".toList parseIntInvalidMsg (by decide)
     (by decide) (by decide)⟩


lemma intToStr_colon_not_mem (n : Int) : ':' ∉ intToStr n := by
  cases n with
  | ofNat m => exact natToStr_colon_not_mem m
  | negSucc m =>
    intro hm
    rcases List.mem_cons.mp hm with hm | hm
    · exact absurd hm (by decide)
    · exact natToStr_colon_not_mem _ hm

lemma intToStr_slash_not_mem (n : Int) : '/' ∉ intToStr n := by
  cases n with
  | ofNat m => exact natToStr_slash_not_mem m
  | negSucc m =>
    intro hm
    rcases List.mem_cons.mp hm with hm | hm
    · exact absurd hm (by decide)
    · exact natToStr_slash_not_mem _ hm

lemma from_str_split_one {s p0 : Str} (hsp : splitChar '/' s = [p0]) :
    ExposePort.from_str s =
      (ExposePortBuilder.client_and_host_port {} p0) >>=
        ExposePortBuilder.build := by
  simp only [ExposePort.from_str, hsp]

lemma from_str_split_two {s p0 p1 : Str} (hsp : splitChar '/' s = [p0, p1]) :
    ExposePort.from_str s =
      (ExposePortBuilder.client_and_host_port {} p0) >>=
        fun b => ExposePortBuilder.build { b with family := some p1 } := by
  simp only [ExposePort.from_str, hsp]

lemma from_str_container_none {s : Str} {p : ExposePort}
    (hone : (splitChar ':' ((splitChar '/' s).headD [])).length = 1)
    (hok : ExposePort.from_str s = .ok p) : p.container_port = none := by
  rcases hsp : splitChar '/' s with _ | ⟨p0, _ | ⟨p1, _ | ⟨p2, rest⟩⟩⟩ <;>
    rw [hsp] at hone
  · exact absurd hsp (splitChar_ne_nil '/' s)
  · rw [from_str_split_one hsp] at hok
    simp only [List.headD_cons] at hone
    rcases hc : ExposePortBuilder.client_and_host_port {} p0 with e | b <;>
      rw [hc] at hok
    · rw [except_bind_error] at hok
      exact absurd hok (by simp)
    · rw [except_bind_ok] at hok
      have hcp := (client_and_host_port_fields hc).2 hone
      have := (build_fields hok).2.1
      rw [this, hcp]
      rfl
  · rw [from_str_split_two hsp] at hok
    simp only [List.headD_cons] at hone
    rcases hc : ExposePortBuilder.client_and_host_port {} p0 with e | b <;>
      rw [hc] at hok
    · rw [except_bind_error] at hok
      exact absurd hok (by simp)
    · rw [except_bind_ok] at hok
      have hcp := (client_and_host_port_fields hc).2 hone
      have := (build_fields hok).2.1
      rw [this]
      rw [show ({ b with family := some p1 } : ExposePortBuilder).container_port =
        b.container_port from rfl, hcp]
      rfl
  · rw [from_str_multi_slash (by rw [hsp]; simp)] at hok
    exact absurd hok (by simp)

lemma decodeEntries_cp_preserved :
    ∀ (kvs : List (Str × Value)) (acc acc' : ExposePortFieldsAcc),
      "container_port".toList ∉ kvs.map Prod.fst →
      decodeEntries exposePortStep acc kvs = .ok acc' →
      acc'.cp = acc.cp := by
  intro kvs
  induction kvs with
  | nil =>
    intro acc acc' _ hok
    cases hok
    rfl
  | cons kv rest ih =>
    intro acc acc' hk hok
    have hk1 : kv.1 ≠ "container_port".toList := by
      intro e
      exact hk (by rw [← e]; exact List.mem_cons_self _ _)
    have hkr : "container_port".toList ∉ rest.map Prod.fst := by
      intro hm
      exact hk (List.mem_cons_of_mem _ hm)
    rw [decodeEntries] at hok
    rcases hs : exposePortStep acc kv with e | acc2 <;> rw [hs] at hok
    · exact absurd hok (by simp)
    · obtain ⟨ahp, acp, afam⟩ := acc
      have hstep : acc2.cp = acp := by
        unfold exposePortStep at hs
        by_cases h1 : kv.1 = "host_port".toList
        · rw [if_pos h1] at hs
          rcases ahp with _ | hval0
          · rcases hd : deserializeU16 kv.2 with e | hval <;> rw [hd] at hs
            · exact absurd hs (by simp [Except.map])
            · simp only [Except.map, Except.ok.injEq] at hs
              rw [← hs]
          · exact absurd hs (by simp)
        · rw [if_neg h1, if_neg (hk1 ·)] at hs
          by_cases h3 : kv.1 = "family".toList
          · rw [if_pos h3] at hs
            rcases afam with _ | fval0
            · rcases hd : deserializeString kv.2 with e | sval <;> rw [hd] at hs
              · exact absurd hs (by simp [Except.map])
              · simp only [Except.map, Except.ok.injEq] at hs
                rw [← hs]
            · exact absurd hs (by simp)
          · rw [if_neg h3] at hs
            exact absurd hs (by simp)
      rw [ih acc2 acc' hkr hok, hstep]

/-- C6: whenever the input omits the container port — a grammar string
whose port-spec body has exactly one colon token, a bare integer, or a
record without the `container_port` key — the normalized `ExposePort` has
`container_port = none`; the normalizer never copies `host_port` into it. -/
theorem container_port_preserved_absent :
    (∀ s p, (splitChar ':' ((splitChar '/' s).headD [])).length = 1 →
      ExposePort.from_str s = .ok p → p.container_port = none) ∧
    (∀ (n : Int) (l : List ExposePort),
      single_or_seq_string_or_struct (.int n) = .ok l →
      ∀ p ∈ l, p.container_port = none) ∧
    (∀ kvs p, "container_port".toList ∉ kvs.map Prod.fst →
      deserialize_expose_port kvs = .ok p → p.container_port = none) := by
  refine ⟨fun s p hone hok => from_str_container_none hone hok, ?_, ?_⟩
  · intro n l hok p hp
    simp only [single_or_seq_string_or_struct] at hok
    rcases hf : ExposePort.from_str (intToStr n) with e | q <;>
      rw [hf] at hok <;>
      simp only [Except.map, Except.mapError] at hok
    · exact absurd hok (by simp)
    · simp only [Except.ok.injEq] at hok
      rw [← hok] at hp
      rcases List.mem_singleton.mp hp with rfl
      refine from_str_container_none ?_ hf
      rw [splitChar_not_mem (intToStr_slash_not_mem n), List.headD_cons,
        splitChar_not_mem (intToStr_colon_not_mem n)]
      rfl
  · intro kvs p hk hok
    simp only [deserialize_expose_port] at hok
    rcases hde : decodeEntries exposePortStep {} kvs with e | f <;>
      rw [hde] at hok
    · rw [except_bind_error] at hok
      exact absurd hok (by simp)
    · rw [except_bind_ok] at hok
      have hcp : f.cp = none := decodeEntries_cp_preserved kvs {} f hk hde
      rcases hfp : f.hp with _ | h <;> rw [hfp] at hok
      · exact absurd hok (by simp)
      · simp only [Except.ok.injEq] at hok
        rw [← hok, hcp]
        rfl

/-- Witness for C6 at the string `"80"`, the bare integer `80`, and the
record `{host_port = 80, family = "udp"}`. -/
theorem container_port_preserved_absent_witness :
    (⟨80, none, DEFAULT_PROTOCOL⟩ : ExposePort).container_port = none ∧
    ((⟨80, none, DEFAULT_PROTOCOL⟩ : ExposePort).container_port = none) ∧
    (⟨80, none, "udp".toList⟩ : ExposePort).container_port = none :=
  ⟨container_port_preserved_absent.1 "80".toList _ (by decide) (by decide),
   container_port_preserved_absent.2.1 80 [⟨80, none, DEFAULT_PROTOCOL⟩]
     (by decide) _ (List.mem_singleton.mpr rfl),
   container_port_preserved_absent.2.2
     [("host_port".toList, Value.int 80), ("family".toList, Value.str "udp".toList)]
     _ (by decide) (by decide)⟩

lemma deserializeU16_nat {h : Nat} (hle : h ≤ 65535) :
    deserializeU16 (.int (h : Int)) = .ok h := by
  simp only [deserializeU16]
  rw [if_pos ⟨Int.natCast_nonneg h, by exact_mod_cast hle⟩]
  simp

lemma deserialize_map_h {h : Nat} (hle : h ≤ 65535) :
    deserialize_expose_port [("host_port".toList, .int (h : Int))] =
      .ok ⟨h, none, DEFAULT_PROTOCOL⟩ := by
  simp +decide [deserialize_expose_port, decodeEntries, exposePortStep,
    deserializeU16_nat hle, Except.map, except_bind_ok]

lemma deserialize_map_hf {h : Nat} {f : Str} (hle : h ≤ 65535) :
    deserialize_expose_port
        [("host_port".toList, .int (h : Int)), ("family".toList, .str f)] =
      .ok ⟨h, none, f⟩ := by
  simp +decide [deserialize_expose_port, decodeEntries, exposePortStep,
    deserializeU16_nat hle, deserializeString, Except.map, except_bind_ok]

lemma deserialize_map_hc {h c : Nat} (hle : h ≤ 65535) (hlec : c ≤ 65535) :
    deserialize_expose_port
        [("host_port".toList, .int (h : Int)),
         ("container_port".toList, .int (c : Int))] =
      .ok ⟨h, some c, DEFAULT_PROTOCOL⟩ := by
  simp +decide [deserialize_expose_port, decodeEntries, exposePortStep,
    deserializeU16_nat hle, deserializeU16_nat hlec, deserializeOptU16,
    Except.map, except_bind_ok]

lemma deserialize_map_hcf {h c : Nat} {f : Str} (hle : h ≤ 65535)
    (hlec : c ≤ 65535) :
    deserialize_expose_port
        [("host_port".toList, .int (h : Int)),
         ("container_port".toList, .int (c : Int)),
         ("family".toList, .str f)] =
      .ok ⟨h, some c, f⟩ := by
  simp +decide [deserialize_expose_port, decodeEntries, exposePortStep,
    deserializeU16_nat hle, deserializeU16_nat hlec, deserializeOptU16,
    deserializeString, Except.map, except_bind_ok]

lemma string_or_struct_str (s : Str) :
    string_or_struct_expose_port (.str s) =
      (ExposePort.from_str s).mapError .custom := rfl

lemma string_or_struct_map (kvs : List (Str × Value)) :
    string_or_struct_expose_port (.map kvs) = deserialize_expose_port kvs := rfl

/-- C1: for every combination of the optional fields, normalizing the
compact grammar string and normalizing the explicit structured record of
the same port specification yield identical `ExposePort` values; in
particular the string `"443:8443/tcp"` and the record
`{host_port = 443, container_port = 8443, family = "tcp"}` decode
identically. -/
theorem string_struct_encodings_equivalent (h c : Nat) (f : Str)
    (hh1 : 1 ≤ h) (hh2 : h ≤ 65535) (hc1 : 1 ≤ c) (hc2 : c ≤ 65535)
    (hf1 : f ≠ []) (hf2 : '/' ∉ f) :
    string_or_struct_expose_port (.str (natToStr h)) =
      string_or_struct_expose_port (.map [("host_port".toList, .int (h : Int))]) ∧
    string_or_struct_expose_port (.str (natToStr h ++ '/' :: f)) =
      string_or_struct_expose_port
        (.map [("host_port".toList, .int (h : Int)), ("family".toList, .str f)]) ∧
    string_or_struct_expose_port (.str (natToStr h ++ ':' :: natToStr c)) =
      string_or_struct_expose_port
        (.map [("host_port".toList, .int (h : Int)),
               ("container_port".toList, .int (c : Int))]) ∧
    string_or_struct_expose_port
        (.str ((natToStr h ++ ':' :: natToStr c) ++ '/' :: f)) =
      string_or_struct_expose_port
        (.map [("host_port".toList, .int (h : Int)),
               ("container_port".toList, .int (c : Int)),
               ("family".toList, .str f)]) ∧
    string_or_struct_expose_port (.str ("443:8443/tcp".toList)) =
      string_or_struct_expose_port
        (.map [("host_port".toList, .int 443),
               ("container_port".toList, .int 8443),
               ("family".toList, .str "tcp".toList)]) := by
  refine ⟨?_, ?_, ?_, ?_, by decide⟩
  · rw [string_or_struct_str, string_or_struct_map,
      from_str_ok_one (natToStr_slash_not_mem h)
        (splitChar_not_mem (natToStr_colon_not_mem h)) (parseU16_natToStr hh2),
      deserialize_map_h hh2]
    rfl
  · rw [string_or_struct_str, string_or_struct_map,
      from_str_ok_one_fam (natToStr_slash_not_mem h) hf2
        (splitChar_not_mem (natToStr_colon_not_mem h)) (parseU16_natToStr hh2),
      deserialize_map_hf hh2]
    rfl
  · rw [string_or_struct_str, string_or_struct_map,
      from_str_ok_two (colon_body_slash_not_mem h c) (colon_body_split h c)
        (parseU16_natToStr hh2) (parseU16_natToStr hc2),
      deserialize_map_hc hh2 hc2]
    rfl
  · rw [string_or_struct_str, string_or_struct_map,
      from_str_ok_two_fam (colon_body_slash_not_mem h c) hf2
        (colon_body_split h c) (parseU16_natToStr hh2) (parseU16_natToStr hc2),
      deserialize_map_hcf hh2 hc2]
    rfl

/-- Witness for C1 at `h = 443`, `c = 8443`, `f = "udp"`. -/
theorem string_struct_encodings_equivalent_witness :
    string_or_struct_expose_port (.str (natToStr 443)) =
      string_or_struct_expose_port
        (.map [("host_port".toList, .int (443 : Nat))]) ∧
    string_or_struct_expose_port (.str (natToStr 443 ++ '/' :: "udp".toList)) =
      string_or_struct_expose_port
        (.map [("host_port".toList, .int (443 : Nat)),
               ("family".toList, .str "udp".toList)]) ∧
    string_or_struct_expose_port (.str (natToStr 443 ++ ':' :: natToStr 8443)) =
      string_or_struct_expose_port
        (.map [("host_port".toList, .int (443 : Nat)),
               ("container_port".toList, .int (8443 : Nat))]) ∧
    string_or_struct_expose_port
        (.str ((natToStr 443 ++ ':' :: natToStr 8443) ++ '/' :: "udp".toList)) =
      string_or_struct_expose_port
        (.map [("host_port".toList, .int (443 : Nat)),
               ("container_port".toList, .int (8443 : Nat)),
               ("family".toList, .str "udp".toList)]) ∧
    string_or_struct_expose_port (.str ("443:8443/tcp".toList)) =
      string_or_struct_expose_port
        (.map [("host_port".toList, .int 443),
               ("container_port".toList, .int 8443),
               ("family".toList, .str "tcp".toList)]) :=
  string_struct_encodings_equivalent 443 8443 "udp".toList (by decide) (by decide)
    (by decide) (by decide) (by decide) (by decide)

/-- C3: the polymorphic port-list normalizer dispatches per node — integer
via base-10 stringify + grammar, string via grammar, record via the
port-record schema — so the mixed sequence
`[80, "53/udp", {host_port: 443, container_port: 8443}]` normalizes to
the three records in order, and a sequence nested inside the sequence is
rejected with a shape error. -/
theorem poly_normalizer_shape_union :
    single_or_seq_string_or_struct
        (.seq [.int 80, .str "53/udp".toList,
          .map [("host_port".toList, .int 443),
                ("container_port".toList, .int 8443)]]) =
      .ok [⟨80, none, "tcp".toList⟩, ⟨53, none, "udp".toList⟩,
           ⟨443, some 8443, "tcp".toList⟩] ∧
    ∀ ys : List Value,
      single_or_seq_string_or_struct (.seq [.seq ys]) =
        .error (.invalidType "sequence" "integer, string or map") := by
  refine ⟨by decide, fun ys => ?_⟩
  simp only [single_or_seq_string_or_struct, visitSeqElems,
    string_or_struct_expose_port, Value.kind, except_bind_error]

lemma visitStringElems_strs (ss : List Str) :
    visitStringElems (ss.map .str) = .ok ss := by
  induction ss with
  | nil => rfl
  | cons a rest ih =>
    simp only [List.map_cons, visitStringElems, deserializeString, ih,
      except_bind_ok]

/-- C10: the scalar-list normalizer maps a single string to the singleton
list containing it verbatim, maps a sequence of strings to the same list
(order and duplicates preserved, elements untransformed), and fails with a
shape error naming "string or sequence of strings" on any other node shape
(number, boolean, record). -/
theorem scalar_list_normalizer :
    (∀ s : Str, string_or_seq_string (.str s) = .ok [s]) ∧
    (∀ ss : List Str, string_or_seq_string (.seq (ss.map .str)) = .ok ss) ∧
    (∀ n : Int, string_or_seq_string (.int n) =
      .error (.invalidType "integer" "string or sequence of strings")) ∧
    (∀ b : Bool, string_or_seq_string (.bool b) =
      .error (.invalidType "boolean" "string or sequence of strings")) ∧
    (∀ kvs, string_or_seq_string (.map kvs) =
      .error (.invalidType "map" "string or sequence of strings")) :=
  ⟨fun _ => rfl,
   fun ss => visitStringElems_strs ss,
   fun _ => rfl,
   fun _ => rfl,
   fun _ => rfl⟩

/-- C9: the polymorphic port-list normalizer is idempotent on
already-normalized input — a sequence consisting only of structured port
records decodes element-wise to exactly those records, in the same order,
unchanged. -/
theorem normalize_idempotent_on_records :
    ∀ (l : List (List (Str × Value))) (ps : List ExposePort),
      List.Forall₂ (fun kvs p => deserialize_expose_port kvs = .ok p) l ps →
      single_or_seq_string_or_struct (.seq (l.map Value.map)) = .ok ps := by
  intro l ps hfor
  induction hfor with
  | nil => rfl
  | @cons kvs p l2 ps2 h1 h2 ih =>
    simp only [List.map_cons]
    show visitSeqElems (Value.map kvs :: l2.map Value.map) = .ok (p :: ps2)
    have ih2 : visitSeqElems (l2.map Value.map) = .ok ps2 := ih
    simp only [visitSeqElems, string_or_struct_map, h1, ih2, except_bind_ok]

/-- Witness for C9 at the two-record list
`[{host_port = 80}, {host_port = 53, family = "udp"}]`. -/
theorem normalize_idempotent_on_records_witness :
    single_or_seq_string_or_struct
        (.seq ([[("host_port".toList, Value.int 80)],
                [("host_port".toList, Value.int 53),
                 ("family".toList, Value.str "udp".toList)]].map Value.map)) =
      .ok [⟨80, none, DEFAULT_PROTOCOL⟩, ⟨53, none, "udp".toList⟩] :=
  normalize_idempotent_on_records _ _
    (List.Forall₂.cons (by decide) (List.Forall₂.cons (by decide) List.Forall₂.nil))

/-- C8: with `deny_unknown_fields`, a record containing any key not
declared in its schema fails decoding, with the unknown-key error, no
matter how many other keys are valid: for any record-entry loop whose step
function rejects the key `k` as unknown, a map whose prefix decodes
successfully and which then contains `k` fails with exactly that error. -/
theorem unknown_key_rejected {α : Type}
    (step : α → Str × Value → Except DeError α)
    (init acc : α) (pre post : List (Str × Value)) (k : Str) (v : Value)
    (hstep : ∀ (a : α) (w : Value), step a (k, w) = .error (.unknownField k))
    (hpre : decodeEntries step init pre = .ok acc) :
    decodeEntries step init (pre ++ (k, v) :: post) =
      .error (.unknownField k) := by
  induction pre generalizing init with
  | nil =>
    rw [List.nil_append, decodeEntries, hstep init v]
  | cons kv0 pre ih =>
    rw [decodeEntries] at hpre
    rw [List.cons_append, decodeEntries]
    rcases hs : step init kv0 with e | a2 <;> rw [hs] at hpre
    · exact absurd hpre (by simp)
    · exact ih a2 hpre

/-- Witness for C8: the `ExposePort` record decoder rejects the map
`{host_port = 80, bogus = "x", family = "tcp"}` with the unknown-key error
on `bogus`. -/
theorem unknown_key_rejected_witness :
    decodeEntries exposePortStep ({} : ExposePortFieldsAcc)
        ([("host_port".toList, Value.int 80)] ++
          ("bogus".toList, Value.str "x".toList) ::
            [("family".toList, Value.str "tcp".toList)]) =
      .error (.unknownField "bogus".toList) :=
  unknown_key_rejected exposePortStep {} ⟨some 80, none, none⟩ _ _ _ _
    (fun a w => by simp +decide [exposePortStep]) (by decide)
